import Mathlib

/-!
Verification of the streaming query-result pipeline of `go-pgproxy`
(`src/main.go`): an HTTP handler that submits a SQL query to a database,
then streams the result set to the client as a gzip-compressed sequence of
newline-delimited JSON records.

The embedding below models the handler `queryHandler` together with the
pieces of its environment it interacts with:

* `Json` / `renderChars` — the JSON values the handler builds (Go
  `map[string]interface{}` literals with `encoding/json`'s sorted-key
  order) and the byte text `json.Encoder.Encode` writes for them
  (compact encoding followed by a newline, with Go's default string
  escaping including HTML escaping).
* `Value` — the dynamically-typed scalar row values produced by the
  driver's `rows.Values()` (a closed scalar sum, per the design notes).
* `Rows` / `Db` — the cursor interface: field descriptions, the
  successive outcomes of `rows.Next()`/`rows.Values()` (each either a
  row or a read error), and the terminal `rows.Err()` value.
* `Ev` — the externally observable output events of one request:
  a JSON record written through the gzip writer (`Ev.record`), a raw
  `http.Error` write to the underlying response writer (`Ev.httpError`),
  and the gzip footer written by the deferred `gz.Close()` (`Ev.gzClose`).

`queryHandler` is a line-by-line translation of `queryHandler` in
`src/main.go`; in particular it queries with `Context.background`
(the source passes `context.Background()`, not the request's context),
emits the header record `{"columns": ..., "rows": []}` exactly as the
source's map literal does, and appends `Ev.gzClose` on every return path
that runs after `gz := gzip.NewWriter(w); defer gz.Close()`.
-/

namespace PgProxy

/-- JSON values, as built by the handler and encoded by Go's
`encoding/json`. `obj` keeps its fields in the order `encoding/json`
writes a Go map: sorted by key. -/
inductive Json where
  | null : Json
  | bool (b : Bool) : Json
  | num (n : Int) : Json
  | str (s : String) : Json
  | arr (elems : List Json) : Json
  | obj (fields : List (String × Json)) : Json

/-- Decimal digit character. -/
def digitChar (d : Nat) : Char :=
  match d with
  | 0 => '0' | 1 => '1' | 2 => '2' | 3 => '3' | 4 => '4'
  | 5 => '5' | 6 => '6' | 7 => '7' | 8 => '8' | _ => '9'

/-- Lowercase hexadecimal digit character, as Go's `encoding/json` uses in
`\u00xx` escapes. -/
def hexChar (d : Nat) : Char :=
  match d with
  | 0 => '0' | 1 => '1' | 2 => '2' | 3 => '3' | 4 => '4'
  | 5 => '5' | 6 => '6' | 7 => '7' | 8 => '8' | 9 => '9'
  | 10 => 'a' | 11 => 'b' | 12 => 'c' | 13 => 'd' | 14 => 'e' | _ => 'f'

/-- Decimal digits of `n`, most significant first, in front of `acc`. -/
def natDigits (n : Nat) (acc : List Char) : List Char :=
  if n < 10 then digitChar n :: acc
  else natDigits (n / 10) (digitChar (n % 10) :: acc)
termination_by n
decreasing_by exact Nat.div_lt_self (by omega) (by omega)

/-- Decimal rendering of an integer, as `encoding/json` writes an `int64`. -/
def intChars (i : Int) : List Char :=
  if i < 0 then '-' :: natDigits i.natAbs [] else natDigits i.natAbs []

/-- Go `encoding/json` escaping of one character inside a JSON string,
with the default HTML escaping (`<`, `>`, `&` become `\u00..`). -/
def escapeChar (c : Char) : List Char :=
  if c = '"' then ['\\', '"']
  else if c = '\\' then ['\\', '\\']
  else if c = '\n' then ['\\', 'n']
  else if c = '\r' then ['\\', 'r']
  else if c = '\t' then ['\\', 't']
  else if c.toNat < 32 then
    ['\\', 'u', '0', '0', hexChar (c.toNat / 16), hexChar (c.toNat % 16)]
  else if c = '<' then ['\\', 'u', '0', '0', '3', 'c']
  else if c = '>' then ['\\', 'u', '0', '0', '3', 'e']
  else if c = '&' then ['\\', 'u', '0', '0', '2', '6']
  else [c]

/-- A JSON string literal: quoted, with every character escaped as
`encoding/json` escapes it. -/
def quoteString (s : String) : List Char :=
  '"' :: (s.data.map escapeChar).flatten ++ ['"']

mutual

/-- The compact JSON text `encoding/json` produces for a value. -/
def renderChars : Json → List Char
  | Json.null => ['n', 'u', 'l', 'l']
  | Json.bool b => if b then ['t', 'r', 'u', 'e'] else ['f', 'a', 'l', 's', 'e']
  | Json.num i => intChars i
  | Json.str s => quoteString s
  | Json.arr elems => '[' :: renderElems elems ++ [']']
  | Json.obj fields => '\x7b' :: renderFields fields ++ ['\x7d']

/-- Comma-separated rendering of array elements. -/
def renderElems : List Json → List Char
  | [] => []
  | j :: rest => renderChars j ++ renderElemsTail rest

def renderElemsTail : List Json → List Char
  | [] => []
  | j :: rest => ',' :: (renderChars j ++ renderElemsTail rest)

/-- Comma-separated rendering of object fields, keys quoted. -/
def renderFields : List (String × Json) → List Char
  | [] => []
  | (k, v) :: rest => quoteString k ++ ':' :: (renderChars v ++ renderFieldsTail rest)

def renderFieldsTail : List (String × Json) → List Char
  | [] => []
  | (k, v) :: rest => ',' :: (quoteString k ++ ':' :: (renderChars v ++ renderFieldsTail rest))

end

/-- A dynamic scalar row value as produced by the driver's
`rows.Values()` (closed sum over the scalar kinds, per §9 of the design). -/
inductive Value where
  | null : Value
  | bool (b : Bool) : Value
  | int (i : Int) : Value
  | str (s : String) : Value

/-- The JSON encoding of a row value. -/
def Value.toJson : Value → Json
  | Value.null => Json.null
  | Value.bool b => Json.bool b
  | Value.int i => Json.num i
  | Value.str s => Json.str s

/-- One column descriptor, mirroring `pgproto3.FieldDescription`: the
handler reads only `Name` (a byte string, converted with `string(...)`). -/
structure FieldDescription where
  name : String
  tableOID : Nat := 0
  dataTypeOID : Nat := 0

/-- `getColumnNames` from `src/main.go`: the `Name` of each field
description, in order. -/
def getColumnNames (columns : List FieldDescription) : List String :=
  columns.map (fun col => col.name)

/-- The result cursor returned by a successful `db.Query`:
`fieldDescriptions` is `rows.FieldDescriptions()`; `steps` lists the
successive outcomes of the `rows.Next()` / `rows.Values()` iteration
(`Except.ok values` = a row delivered, `Except.error msg` =
`rows.Values()` fails for that row); when the iteration runs off the end
of `steps`, `rows.Next()` returns false and `rows.Err()` returns
`finalErr`. -/
structure Rows where
  fieldDescriptions : List FieldDescription
  steps : List (Except String (List Value))
  finalErr : Option String

/-- A request context, carrying only what the code could observe of it:
whether (and before which row) its cancellation signal fires. -/
structure Context where
  cancelledAt : Option Nat

/-- `context.Background()`: a context that is never cancelled. -/
def Context.background : Context := ⟨none⟩

/-- The database pool: `db.Query(ctx, sql)` either fails (the error text)
or yields a cursor. -/
structure Db where
  query : Context → String → Except String Rows

/-- `SQLQuery` from `src/main.go`: the decoded request body. -/
structure SQLQuery where
  query : String

/-- The request body as seen by `json.NewDecoder(r.Body).Decode`:
either not decodable into `SQLQuery` at all, or a JSON object whose
`"query"` key may be present or absent. -/
inductive ReqBody where
  | malformed : ReqBody
  | json (query : Option String) : ReqBody

/-- Go's `json.Decode(&sqlQuery)`: a malformed body fails; a decodable
body without a `"query"` key leaves the field at its zero value `""`. -/
def decodeBody : ReqBody → Except Unit SQLQuery
  | ReqBody.malformed => Except.error ()
  | ReqBody.json q => Except.ok ⟨q.getD ""⟩

/-- An incoming HTTP request: its method, its body, and its context
(`r.Context()` — which the source never consults). -/
structure Request where
  method : String
  body : ReqBody
  ctx : Context

/-- One externally observable output event of the handler:
`record j` — `encoder.Encode` writes the JSON text of `j` plus a newline
through the gzip writer; `httpError code msg` — `http.Error(w, msg, code)`
writes `msg` and a newline raw to the underlying response writer (and
attempts to set the status); `gzClose` — the deferred `gz.Close()`
flushes the compressor and writes the gzip footer, terminating the
compressed frame. -/
inductive Ev where
  | record (j : Json) : Ev
  | httpError (code : Nat) (msg : String) : Ev
  | gzClose : Ev

/-- The first record the handler encodes (lines 80–85 of `src/main.go`):
the Go map literal `{"columns": columns, "rows": [][]interface{}{}}`,
whose keys `encoding/json` writes in sorted order — so the record carries
both the column list and an empty `"rows"` array. -/
def headerRecord (columns : List String) : Json :=
  Json.obj [("columns", Json.arr (columns.map Json.str)),
            ("rows", Json.arr [])]

/-- One per-row record (lines 99–101 of `src/main.go`): the map literal
`{"rows": [][]interface{}{values}}` — a `"rows"` array holding exactly
the one row. -/
def rowRecord (values : List Value) : Json :=
  Json.obj [("rows", Json.arr [Json.arr (values.map Value.toJson)])]

/-- The `for rows.Next()` loop (lines 91–106 of `src/main.go`).
`wire k` is the outcome of the `k`-th `encoder.Encode` call of the
response (`none` = the write succeeds, `some msg` = it fails with `msg`;
the header was call `0`). Returns the events the loop emits and whether
it returned early through `http.Error` (a `rows.Values()` failure or an
encode failure). -/
def streamRows (wire : Nat → Option String) :
    Nat → List (Except String (List Value)) → List Ev × Bool
  | _, [] => ([], false)
  | k, step :: rest =>
    match step with
    | Except.error msg => ([Ev.httpError 500 ("Error reading row: " ++ msg)], true)
    | Except.ok values =>
      match wire k with
      | some msg => ([Ev.httpError 500 ("Error encoding row: " ++ msg)], true)
      | none =>
        let r := streamRows wire (k + 1) rest
        (Ev.record (rowRecord values) :: r.1, r.2)

/-- `queryHandler` from `src/main.go`, line by line.  Its observable
output is the list of `Ev` events in the order the code produces them.
Note: the query is submitted with `Context.background` (line 59 passes
`context.Background()`, not `r.Context()`), and every return path that
runs after line 74 (`defer gz.Close()`) ends with `Ev.gzClose`. -/
def queryHandler (db : Db) (wire : Nat → Option String) (r : Request) : List Ev :=
  if r.method ≠ "POST" then
    [Ev.httpError 405 "Invalid request method"]
  else
    match decodeBody r.body with
    | Except.error _ => [Ev.httpError 400 "Invalid request body"]
    | Except.ok sqlQuery =>
      match db.query Context.background sqlQuery.query with
      | Except.error e => [Ev.httpError 400 ("Query error: " ++ e)]
      | Except.ok rows =>
        let columns := getColumnNames rows.fieldDescriptions
        let queryResponse := headerRecord columns
        match wire 0 with
        | some msg =>
          [Ev.httpError 500 ("Error encoding response: " ++ msg), Ev.gzClose]
        | none =>
          let res := streamRows wire 1 rows.steps
          if res.2 then
            Ev.record queryResponse :: res.1 ++ [Ev.gzClose]
          else
            match rows.finalErr with
            | some e =>
              Ev.record queryResponse :: res.1 ++
                [Ev.httpError 500 ("Query error: " ++ e), Ev.gzClose]
            | none => Ev.record queryResponse :: res.1 ++ [Ev.gzClose]

/-- The JSON records written through the gzip writer, in order. -/
def recJsons (tr : List Ev) : List Json :=
  tr.filterMap fun e =>
    match e with
    | Ev.record j => some j
    | _ => none

/-- The decompressed payload of the gzip-framed part of the response:
each `encoder.Encode` call contributes the compact JSON text of its
record followed by a newline. -/
def gzBody (tr : List Ev) : List Char :=
  ((recJsons tr).map (fun j => renderChars j ++ ['\n'])).flatten

/-- The rows carried by one record: the elements of its `"rows"` field. -/
def recRows (j : Json) : List Json :=
  match j with
  | Json.obj fields =>
    match fields.lookup "rows" with
    | some (Json.arr rs) => rs
    | _ => []
  | _ => []

/-- Whether a record is a header record: it carries a `"columns"` key. -/
def isHeaderRec (j : Json) : Bool :=
  match j with
  | Json.obj fields => (fields.lookup "columns").isSome
  | _ => false

/-! ### Concrete environments used to instantiate the theorems -/

/-- A network/compression layer on which every `encoder.Encode` succeeds. -/
def wireOk : Nat → Option String := fun _ => none

/-- A cursor with one `int` column and two rows. -/
def rowsC1 : Rows :=
  ⟨[⟨"x", 0, 23⟩], [Except.ok [Value.int 7], Except.ok [Value.int 8]], none⟩

/-- A database that answers `"SELECT x"` with `rowsC1`. -/
def dbC1 : Db :=
  ⟨fun _ q => if q = "SELECT x" then Except.ok rowsC1 else Except.error "relation missing"⟩

/-- A database whose cursor delivers one row and then fails while reading
the second (`rows.Values()` error). -/
def dbC2 : Db :=
  ⟨fun _ _ =>
    Except.ok ⟨[⟨"a", 0, 23⟩], [Except.ok [Value.int 1], Except.error "boom"], none⟩⟩

/-- A database whose cursor delivers one row and then reports a terminal
cursor error through `rows.Err()`. -/
def dbC3 : Db :=
  ⟨fun _ _ =>
    Except.ok ⟨[⟨"a", 0, 23⟩], [Except.ok [Value.int 1]], some "connection reset"⟩⟩

/-- The database behaviour of the spec scenario
`SELECT 1 AS a, 2 AS b`: two columns, one row `[1, 2]`. -/
def dbC4 : Db :=
  ⟨fun _ q =>
    if q = "SELECT 1 AS a, 2 AS b" then
      Except.ok ⟨[⟨"a", 0, 23⟩, ⟨"b", 0, 23⟩],
                 [Except.ok [Value.int 1, Value.int 2]], none⟩
    else Except.error "syntax error"⟩

/-- A cursor with two named columns and no rows. -/
def rowsC5 : Rows := ⟨[⟨"id", 1, 23⟩, ⟨"name", 1, 25⟩], [], none⟩

/-- A database that answers `"SELECT * FROM t"` with `rowsC5`. -/
def dbC5 : Db :=
  ⟨fun _ q => if q = "SELECT * FROM t" then Except.ok rowsC5 else Except.error "no such table"⟩

/-- A database that rejects every query at submission time. -/
def dbC6 : Db :=
  ⟨fun _ _ => Except.error "syntax error at or near \"SELEC\""⟩

/-- A cursor with one text column and two rows, for the framing theorem. -/
def rowsC7 : Rows :=
  ⟨[⟨"v", 0, 25⟩], [Except.ok [Value.str "p"], Except.ok [Value.null]], none⟩

/-- A database that answers `"SELECT v"` with `rowsC7`. -/
def dbC7 : Db :=
  ⟨fun _ q => if q = "SELECT v" then Except.ok rowsC7 else Except.error "bad query"⟩

/-- A cancellation-aware database: a query submitted over an already
cancelled context fails immediately, while one submitted over a live
context yields three rows.  Since the handler always submits over
`Context.background`, it never sees the cancelled behaviour. -/
def dbC8 : Db :=
  ⟨fun ctx _ =>
    if ctx.cancelledAt.isSome then Except.error "canceled"
    else
      Except.ok ⟨[⟨"n", 0, 23⟩],
                 [Except.ok [Value.int 1], Except.ok [Value.int 2], Except.ok [Value.int 3]],
                 none⟩⟩

/-- A database that rejects the empty query text the way PostgreSQL
reports it, and accepts anything else. -/
def dbC10 : Db :=
  ⟨fun _ q =>
    if q = "" then Except.error "empty query"
    else Except.ok ⟨[⟨"a", 0, 23⟩], [], none⟩⟩

/-! ### Basic facts about the observable trace -/

@[simp] lemma recJsons_nil : recJsons [] = [] := rfl

@[simp] lemma recJsons_cons_record (j : Json) (l : List Ev) :
    recJsons (Ev.record j :: l) = j :: recJsons l := rfl

@[simp] lemma recJsons_cons_httpError (c : Nat) (m : String) (l : List Ev) :
    recJsons (Ev.httpError c m :: l) = recJsons l := rfl

@[simp] lemma recJsons_cons_gzClose (l : List Ev) :
    recJsons (Ev.gzClose :: l) = recJsons l := rfl

@[simp] lemma recJsons_append (a b : List Ev) :
    recJsons (a ++ b) = recJsons a ++ recJsons b := by
  simp [recJsons]

/-- When every cursor step delivers a row and every write succeeds, the
row loop emits exactly one record per row, in cursor order, and does not
return early. -/
lemma streamRows_allOk (wire : Nat → Option String) (hwire : ∀ k, wire k = none) :
    ∀ (okVals : List (List Value)) (k : Nat),
      streamRows wire k (okVals.map Except.ok) =
        (okVals.map (fun vs => Ev.record (rowRecord vs)), false) := by
  intro okVals
  induction okVals with
  | nil => intro k; rfl
  | cons vs rest ih =>
    intro k
    simp [streamRows, hwire k, ih (k + 1)]

/-- Every JSON record the row loop ever writes is a (single-row)
`rowRecord`, whatever the cursor or the wire do. -/
lemma streamRows_record_shape (wire : Nat → Option String) :
    ∀ (steps : List (Except String (List Value))) (k : Nat) (j : Json),
      Ev.record j ∈ (streamRows wire k steps).1 → ∃ vs, j = rowRecord vs := by
  intro steps
  induction steps with
  | nil => intro k j h; simp [streamRows] at h
  | cons step rest ih =>
    intro k j h
    match step with
    | Except.error msg => simp [streamRows] at h
    | Except.ok values =>
      rw [streamRows] at h
      cases hw : wire k with
      | some msg => rw [hw] at h; simp at h
      | none =>
        rw [hw] at h
        simp at h
        rcases h with h | h
        · exact ⟨values, h⟩
        · exact ih (k + 1) j h

/-- Unfolding of the handler on a POST request whose body decodes and
whose query the database accepts. -/
lemma queryHandler_query_ok (db : Db) (wire : Nat → Option String) (q : String)
    (ctx : Context) (rows : Rows)
    (hq : db.query Context.background q = Except.ok rows) :
    queryHandler db wire ⟨"POST", ReqBody.json (some q), ctx⟩ =
      match wire 0 with
      | some msg => [Ev.httpError 500 ("Error encoding response: " ++ msg), Ev.gzClose]
      | none =>
        let res := streamRows wire 1 rows.steps
        if res.2 then
          Ev.record (headerRecord (getColumnNames rows.fieldDescriptions)) :: res.1 ++ [Ev.gzClose]
        else
          match rows.finalErr with
          | some e =>
            Ev.record (headerRecord (getColumnNames rows.fieldDescriptions)) :: res.1 ++
              [Ev.httpError 500 ("Query error: " ++ e), Ev.gzClose]
          | none =>
            Ev.record (headerRecord (getColumnNames rows.fieldDescriptions)) :: res.1 ++ [Ev.gzClose] := by
  simp [queryHandler, decodeBody, hq]

/-! ### The rendered text of a record never contains a newline -/

lemma digitChar_ne_nl (d : Nat) : digitChar d ≠ '\n' := by
  unfold digitChar; split <;> decide

lemma hexChar_ne_nl (d : Nat) : hexChar d ≠ '\n' := by
  unfold hexChar; split <;> decide

lemma natDigits_mem (n : Nat) : ∀ (acc : List Char) (c : Char),
    c ∈ natDigits n acc → c ∈ acc ∨ ∃ d, c = digitChar d := by
  induction n using Nat.strong_induction_on with
  | _ n ih =>
    intro acc c hc
    rw [natDigits] at hc
    split at hc
    · rcases List.mem_cons.mp hc with h | h
      · exact Or.inr ⟨n, h⟩
      · exact Or.inl h
    · rcases ih (n / 10) (Nat.div_lt_self (by omega) (by omega)) _ c hc with h | h
      · rcases List.mem_cons.mp h with h2 | h2
        · exact Or.inr ⟨n % 10, h2⟩
        · exact Or.inl h2
      · exact Or.inr h

lemma intChars_nl (i : Int) : '\n' ∉ intChars i := by
  intro h
  unfold intChars at h
  split at h
  · rcases List.mem_cons.mp h with h2 | h2
    · exact absurd h2 (by decide)
    · rcases natDigits_mem _ _ _ h2 with h3 | ⟨d, h3⟩
      · simp at h3
      · exact digitChar_ne_nl d h3.symm
  · rcases natDigits_mem _ _ _ h with h3 | ⟨d, h3⟩
    · simp at h3
    · exact digitChar_ne_nl d h3.symm

lemma escapeChar_nl (c : Char) : '\n' ∉ escapeChar c := by
  intro h
  unfold escapeChar at h
  split_ifs at h with h1 h2 h3 h4 h5 h6 h7 h8 h9 <;>
    simp_all [List.mem_cons]
  · rcases h with h | h
    · exact hexChar_ne_nl _ h.symm
    · exact hexChar_ne_nl _ h.symm
  · exact h3 h.symm

lemma quoteString_nl (s : String) : '\n' ∉ quoteString s := by
  intro h
  unfold quoteString at h
  rcases List.mem_cons.mp h with h2 | h2
  · exact absurd h2 (by decide)
  · rcases List.mem_append.mp h2 with h3 | h3
    · rcases List.mem_flatten.mp h3 with ⟨l, hl, hc⟩
      rcases List.mem_map.mp hl with ⟨ch, _, rfl⟩
      exact escapeChar_nl ch hc
    · simp at h3

lemma value_render_nl (v : Value) : '\n' ∉ renderChars (Value.toJson v) := by
  cases v with
  | null => simp [Value.toJson, renderChars]
  | bool b => cases b <;> simp [Value.toJson, renderChars]
  | int i => simpa [Value.toJson, renderChars] using intChars_nl i
  | str s => simpa [Value.toJson, renderChars] using quoteString_nl s

lemma renderElemsTail_nl (js : List Json)
    (h : ∀ j ∈ js, '\n' ∉ renderChars j) : '\n' ∉ renderElemsTail js := by
  induction js with
  | nil => simp [renderElemsTail]
  | cons j rest ih =>
    intro hmem
    rw [renderElemsTail] at hmem
    rcases List.mem_cons.mp hmem with h2 | h2
    · exact absurd h2 (by decide)
    · rcases List.mem_append.mp h2 with h3 | h3
      · exact h j (by simp) h3
      · exact ih (fun x hx => h x (by simp [hx])) h3

lemma renderElems_nl (js : List Json)
    (h : ∀ j ∈ js, '\n' ∉ renderChars j) : '\n' ∉ renderElems js := by
  cases js with
  | nil => simp [renderElems]
  | cons j rest =>
    intro hmem
    rw [renderElems] at hmem
    rcases List.mem_append.mp hmem with h2 | h2
    · exact h j (by simp) h2
    · exact renderElemsTail_nl rest (fun x hx => h x (by simp [hx])) h2

lemma renderFieldsTail_nl (fs : List (String × Json))
    (h : ∀ p ∈ fs, '\n' ∉ renderChars p.2) : '\n' ∉ renderFieldsTail fs := by
  induction fs with
  | nil => simp [renderFieldsTail]
  | cons p rest ih =>
    intro hmem
    obtain ⟨k, v⟩ := p
    rw [renderFieldsTail] at hmem
    rcases List.mem_cons.mp hmem with h2 | h2
    · exact absurd h2 (by decide)
    · rcases List.mem_append.mp h2 with h3 | h3
      · exact quoteString_nl k h3
      · rcases List.mem_cons.mp h3 with h4 | h4
        · exact absurd h4 (by decide)
        · rcases List.mem_append.mp h4 with h5 | h5
          · exact h (k, v) (by simp) h5
          · exact ih (fun x hx => h x (by simp [hx])) h5

lemma renderFields_nl (fs : List (String × Json))
    (h : ∀ p ∈ fs, '\n' ∉ renderChars p.2) : '\n' ∉ renderFields fs := by
  cases fs with
  | nil => simp [renderFields]
  | cons p rest =>
    intro hmem
    obtain ⟨k, v⟩ := p
    rw [renderFields] at hmem
    rcases List.mem_append.mp hmem with h2 | h2
    · exact quoteString_nl k h2
    · rcases List.mem_cons.mp h2 with h3 | h3
      · exact absurd h3 (by decide)
      · rcases List.mem_append.mp h3 with h4 | h4
        · exact h (k, v) (by simp) h4
        · exact renderFieldsTail_nl rest (fun x hx => h x (by simp [hx])) h4

lemma obj_render_nl (fs : List (String × Json))
    (h : ∀ p ∈ fs, '\n' ∉ renderChars p.2) : '\n' ∉ renderChars (Json.obj fs) := by
  intro hmem
  rw [renderChars] at hmem
  rcases List.mem_cons.mp hmem with h2 | h2
  · exact absurd h2 (by decide)
  · rcases List.mem_append.mp h2 with h3 | h3
    · exact renderFields_nl fs h h3
    · simp at h3

lemma arr_render_nl (js : List Json)
    (h : ∀ j ∈ js, '\n' ∉ renderChars j) : '\n' ∉ renderChars (Json.arr js) := by
  intro hmem
  rw [renderChars] at hmem
  rcases List.mem_cons.mp hmem with h2 | h2
  · exact absurd h2 (by decide)
  · rcases List.mem_append.mp h2 with h3 | h3
    · exact renderElems_nl js h h3
    · simp at h3

lemma headerRecord_nl (cols : List String) : '\n' ∉ renderChars (headerRecord cols) := by
  apply obj_render_nl
  intro p hp
  rcases List.mem_cons.mp hp with h | h
  · subst h
    apply arr_render_nl
    intro j hj
    rcases List.mem_map.mp hj with ⟨c, _, rfl⟩
    simpa [renderChars] using quoteString_nl c
  · rcases List.mem_cons.mp h with h2 | h2
    · subst h2
      apply arr_render_nl
      intro j hj
      simp at hj
    · simp at h2

lemma rowRecord_nl (vs : List Value) : '\n' ∉ renderChars (rowRecord vs) := by
  apply obj_render_nl
  intro p hp
  rcases List.mem_cons.mp hp with h | h
  · subst h
    apply arr_render_nl
    intro j hj
    rcases List.mem_cons.mp hj with h2 | h2
    · subst h2
      apply arr_render_nl
      intro j2 hj2
      rcases List.mem_map.mp hj2 with ⟨v, _, rfl⟩
      exact value_render_nl v
    · simp at h2
  · simp at h

/-! ### Framing: the stream is newline-delimited records, not one value -/

/-- The concatenated encoder output of a nonempty record list ends in the
newline the last `Encode` call appended. -/
lemma flatten_records_ends_nl (js : List Json) (h : js ≠ []) :
    ∃ pre, ((js.map fun j => renderChars j ++ ['\n'])).flatten = pre ++ ['\n'] := by
  induction js with
  | nil => simp at h
  | cons j rest ih =>
    cases rest with
    | nil => exact ⟨renderChars j, by simp⟩
    | cons j2 rest2 =>
      rcases ih (by simp) with ⟨pre, hpre⟩
      refine ⟨renderChars j ++ '\n' :: pre, ?_⟩
      rw [List.map_cons, List.flatten_cons, hpre]
      simp

lemma append_last_ne (a b : List Char) (x y : Char) (hxy : x ≠ y) :
    a ++ [x] ≠ b ++ [y] := by
  intro h
  have h2 := List.append_inj' h (by simp)
  exact hxy (by simpa using h2.2)

/-- Text ending in a newline is not the encoder text of a JSON array
(which ends in a bracket): the stream has no enclosing array wrapper. -/
lemma nl_append_ne_arr (pre : List Char) (elems : List Json) :
    pre ++ ['\n'] ≠ renderChars (Json.arr elems) := by
  rw [renderChars]
  have h : ('[' :: renderElems elems ++ [']'] : List Char) =
      ('[' :: renderElems elems) ++ [']'] := by simp
  rw [h]
  exact append_last_ne _ _ _ _ (by decide)

/-- Text ending in a newline is not the encoder text of a JSON object:
the stream has no enclosing object wrapper. -/
lemma nl_append_ne_obj (pre : List Char) (fs : List (String × Json)) :
    pre ++ ['\n'] ≠ renderChars (Json.obj fs) := by
  rw [renderChars]
  have h : ('\x7b' :: renderFields fs ++ ['\x7d'] : List Char) =
      ('\x7b' :: renderFields fs) ++ ['\x7d'] := by simp
  rw [h]
  exact append_last_ne _ _ _ _ (by decide)

/-! ### Record contents -/

lemma recRows_headerRecord (cols : List String) : recRows (headerRecord cols) = [] := rfl

lemma recRows_rowRecord (vs : List Value) :
    recRows (rowRecord vs) = [Json.arr (vs.map Value.toJson)] := rfl

lemma isHeaderRec_headerRecord (cols : List String) : isHeaderRec (headerRecord cols) = true := rfl

lemma isHeaderRec_rowRecord (vs : List Value) : isHeaderRec (rowRecord vs) = false := rfl

lemma recJsons_map_record {α : Type} (l : List α) (f : α → Json) :
    recJsons (l.map fun x => Ev.record (f x)) = l.map f := by
  induction l with
  | nil => rfl
  | cons a rest ih => simp [ih]

lemma mem_recJsons (j : Json) (l : List Ev) : j ∈ recJsons l ↔ Ev.record j ∈ l := by
  induction l with
  | nil => simp
  | cons e rest ih =>
    cases e with
    | record j2 => simp [ih]
    | httpError c m => simp [ih]
    | gzClose => simp [ih]

/-- On any accepted query the records written are the header record
followed by whatever records the row loop writes — whatever the cursor
steps, the terminal cursor error and the later writes do. -/
lemma recJsons_query_ok (db : Db) (wire : Nat → Option String) (q : String)
    (ctx : Context) (rows : Rows)
    (hq : db.query Context.background q = Except.ok rows) (h0 : wire 0 = none) :
    recJsons (queryHandler db wire ⟨"POST", ReqBody.json (some q), ctx⟩) =
      headerRecord (getColumnNames rows.fieldDescriptions) ::
        recJsons (streamRows wire 1 rows.steps).1 := by
  rw [queryHandler_query_ok db wire q ctx rows hq, h0]
  cases hfe : rows.finalErr <;>
    by_cases h2 : (streamRows wire 1 rows.steps).2 <;>
      simp [h2, hfe]

/-- On a fully successful query the records written are exactly the
header record followed by one `rowRecord` per cursor row, in order. -/
lemma recJsons_allOk (db : Db) (wire : Nat → Option String) (q : String)
    (ctx : Context) (rows : Rows) (okVals : List (List Value))
    (hq : db.query Context.background q = Except.ok rows)
    (hsteps : rows.steps = okVals.map Except.ok)
    (hwire : ∀ k, wire k = none) :
    recJsons (queryHandler db wire ⟨"POST", ReqBody.json (some q), ctx⟩) =
      headerRecord (getColumnNames rows.fieldDescriptions) :: okVals.map rowRecord := by
  rw [recJsons_query_ok db wire q ctx rows hq (hwire 0), hsteps,
      streamRows_allOk wire hwire okVals 1, recJsons_map_record]

lemma filter_isHeaderRec_rowRecords (okVals : List (List Value)) :
    (okVals.map rowRecord).filter isHeaderRec = [] := by
  induction okVals with
  | nil => rfl
  | cons vs rest ih => simp [isHeaderRec_rowRecord, ih]

lemma flatten_map_recRows (okVals : List (List Value)) :
    ((okVals.map rowRecord).map recRows).flatten =
      okVals.map (fun vs => Json.arr (vs.map Value.toJson)) := by
  induction okVals with
  | nil => rfl
  | cons vs rest ih =>
    simp only [List.map_cons, List.flatten_cons, recRows_rowRecord, List.singleton_append, ih]

lemma query_error_ne_body_error (e : String) :
    ("Query error: " ++ e) ≠ "Invalid request body" := by
  intro hcontra
  have hd := congrArg String.data hcontra
  rw [String.data_append] at hd
  have h1 : "Query error: ".data = 'Q' :: "uery error: ".data := rfl
  have h2 : "Invalid request body".data = 'I' :: "nvalid request body".data := rfl
  rw [h1, h2] at hd
  simp at hd

/-! ### The claims -/

/-- C1. For every valid query whose cursor produces `N` rows (any
`N ≥ 0`, including `N = 0`), the response body stream contains exactly
one header record, emitted before any row record, followed by row
records whose row counts sum to `N`, in exactly the order the database
returned the rows — no reordering, no deduplication.  Stated over any
database behaviour whose cursor delivers `okVals` and any write layer
that accepts every write: the record list is the header followed by one
`rowRecord` per cursor row in order; the only record carrying a
`"columns"` key is the header, at the front; and concatenating the
`"rows"` arrays of all records, in record order, yields exactly the
cursor rows. -/
theorem c1_header_then_rows_exact (db : Db) (wire : Nat → Option String) (q : String)
    (ctx : Context) (rows : Rows) (okVals : List (List Value))
    (hq : db.query Context.background q = Except.ok rows)
    (hsteps : rows.steps = okVals.map Except.ok)
    (_hfin : rows.finalErr = none)
    (hwire : ∀ k, wire k = none) :
    recJsons (queryHandler db wire ⟨"POST", ReqBody.json (some q), ctx⟩) =
      headerRecord (getColumnNames rows.fieldDescriptions) :: okVals.map rowRecord ∧
    (recJsons (queryHandler db wire ⟨"POST", ReqBody.json (some q), ctx⟩)).filter isHeaderRec =
      [headerRecord (getColumnNames rows.fieldDescriptions)] ∧
    ((recJsons (queryHandler db wire ⟨"POST", ReqBody.json (some q), ctx⟩)).map recRows).flatten =
      okVals.map (fun vs => Json.arr (vs.map Value.toJson)) ∧
    (((recJsons (queryHandler db wire ⟨"POST", ReqBody.json (some q), ctx⟩)).map recRows).flatten).length =
      okVals.length := by
  have h := recJsons_allOk db wire q ctx rows okVals hq hsteps hwire
  have h3 : ((recJsons (queryHandler db wire ⟨"POST", ReqBody.json (some q), ctx⟩)).map recRows).flatten =
      okVals.map (fun vs => Json.arr (vs.map Value.toJson)) := by
    rw [h, List.map_cons, List.flatten_cons, recRows_headerRecord, List.nil_append,
        flatten_map_recRows]
  refine ⟨h, ?_, h3, ?_⟩
  · rw [h]
    simp [List.filter_cons, isHeaderRec_headerRecord, filter_isHeaderRec_rowRecords]
  · rw [h3, List.length_map]

/-- Witness for C1 at a concrete two-row query. -/
theorem c1_header_then_rows_exact_witness :
    dbC1.query Context.background "SELECT x" = Except.ok rowsC1 ∧
    rowsC1.steps = [[Value.int 7], [Value.int 8]].map Except.ok ∧
    rowsC1.finalErr = none ∧
    (∀ k, wireOk k = none) ∧
    (recJsons (queryHandler dbC1 wireOk ⟨"POST", ReqBody.json (some "SELECT x"), ⟨none⟩⟩) =
        headerRecord (getColumnNames rowsC1.fieldDescriptions) ::
          [[Value.int 7], [Value.int 8]].map rowRecord ∧
      (recJsons (queryHandler dbC1 wireOk ⟨"POST", ReqBody.json (some "SELECT x"), ⟨none⟩⟩)).filter isHeaderRec =
        [headerRecord (getColumnNames rowsC1.fieldDescriptions)] ∧
      ((recJsons (queryHandler dbC1 wireOk ⟨"POST", ReqBody.json (some "SELECT x"), ⟨none⟩⟩)).map recRows).flatten =
        [[Value.int 7], [Value.int 8]].map (fun vs => Json.arr (vs.map Value.toJson)) ∧
      (((recJsons (queryHandler dbC1 wireOk ⟨"POST", ReqBody.json (some "SELECT x"), ⟨none⟩⟩)).map recRows).flatten).length =
        ([[Value.int 7], [Value.int 8]] : List (List Value)).length) :=
  ⟨rfl, rfl, rfl, fun _ => rfl,
   c1_header_then_rows_exact dbC1 wireOk "SELECT x" ⟨none⟩ rowsC1
     [[Value.int 7], [Value.int 8]] rfl rfl rfl (fun _ => rfl)⟩

/-- C2 (code bug). The claim says that a failure after the header record
(row-read error, row-encoding error, or terminal cursor error) is
surfaced only through logging and that no error payload is ever written
into the already-open response stream.  The code does the opposite: at
`src/main.go` lines 94, 103 and 109 it calls `http.Error`, which writes
the error text raw into the response.  Evaluated at a cursor that
delivers one row and then fails on `rows.Values()`: the trace shows an
`Ev.httpError` write after JSON records have already been written
(iteration is indeed aborted — no further row records follow). -/
theorem c2_error_payload_written_mid_stream :
    queryHandler dbC2 wireOk ⟨"POST", ReqBody.json (some "SELECT a FROM big"), ⟨none⟩⟩ =
      [Ev.record (headerRecord ["a"]), Ev.record (rowRecord [Value.int 1]),
       Ev.httpError 500 "Error reading row: boom", Ev.gzClose] ∧
    (∃ pre post, queryHandler dbC2 wireOk ⟨"POST", ReqBody.json (some "SELECT a FROM big"), ⟨none⟩⟩ =
      pre ++ Ev.httpError 500 "Error reading row: boom" :: post ∧ recJsons pre ≠ []) := by
  refine ⟨rfl, [Ev.record (headerRecord ["a"]), Ev.record (rowRecord [Value.int 1])],
    [Ev.gzClose], rfl, by simp⟩

/-- C3 (code bug). The claim says a failure after `K ≥ 1` streamed rows
leaves the stream truncated and that a well-formed terminating
compressed frame is never emitted on this error path.  But the deferred
`gz.Close()` (line 74 of `src/main.go`) runs on every return path, so
the gzip footer — a well-formed terminating frame — IS written after the
mid-stream failure; what makes the body invalid for the client is the
raw `http.Error` payload injected before it, not truncation.  Evaluated
at a cursor that delivers one row and then reports a terminal error via
`rows.Err()`: the trace ends with `Ev.gzClose` after two records
(header + 1 row) and the interleaved raw error write. -/
theorem c3_terminating_frame_emitted_on_error :
    queryHandler dbC3 wireOk ⟨"POST", ReqBody.json (some "SELECT a FROM big"), ⟨none⟩⟩ =
      [Ev.record (headerRecord ["a"]), Ev.record (rowRecord [Value.int 1]),
       Ev.httpError 500 "Query error: connection reset", Ev.gzClose] ∧
    Ev.gzClose ∈ queryHandler dbC3 wireOk ⟨"POST", ReqBody.json (some "SELECT a FROM big"), ⟨none⟩⟩ ∧
    (recJsons (queryHandler dbC3 wireOk ⟨"POST", ReqBody.json (some "SELECT a FROM big"), ⟨none⟩⟩)).length = 2 := by
  have h : queryHandler dbC3 wireOk ⟨"POST", ReqBody.json (some "SELECT a FROM big"), ⟨none⟩⟩ =
      [Ev.record (headerRecord ["a"]), Ev.record (rowRecord [Value.int 1]),
       Ev.httpError 500 "Query error: connection reset", Ev.gzClose] := rfl
  refine ⟨h, by rw [h]; simp, rfl⟩

/-- C4 counterexample. The claim says the header record is a JSON object
containing exactly the column name list, `{"columns": [...]}` — for the
scenario query `SELECT 1 AS a, 2 AS b`, the record
`{"columns":["a","b"]}`.  But the map literal at lines 80–83 of
`src/main.go` also puts an empty `"rows"` key into the header record,
so the record actually emitted (and its encoder text) differs from the
claimed one. -/
theorem c4_header_record_counterexample :
    (recJsons (queryHandler dbC4 wireOk ⟨"POST", ReqBody.json (some "SELECT 1 AS a, 2 AS b"), ⟨none⟩⟩)).head? =
      some (headerRecord ["a", "b"]) ∧
    headerRecord ["a", "b"] ≠ Json.obj [("columns", Json.arr [Json.str "a", Json.str "b"])] ∧
    renderChars (headerRecord ["a", "b"]) ≠
      renderChars (Json.obj [("columns", Json.arr [Json.str "a", Json.str "b"])]) := by
  refine ⟨rfl, by intro h; simp [headerRecord] at h, ?_⟩
  have h1 : String.mk (renderChars (headerRecord ["a", "b"])) =
      "\x7b\"columns\":[\"a\",\"b\"],\"rows\":[]\x7d" := by
    simp [headerRecord, renderChars, renderElems, renderElemsTail, renderFields,
          renderFieldsTail, quoteString, escapeChar]
  have h2 : String.mk (renderChars (Json.obj [("columns", Json.arr [Json.str "a", Json.str "b"])])) =
      "\x7b\"columns\":[\"a\",\"b\"]\x7d" := by
    simp [renderChars, renderElems, renderElemsTail, renderFields,
          renderFieldsTail, quoteString, escapeChar]
  intro hcontra
  rw [hcontra] at h1
  rw [h1] at h2
  simp at h2

/-- C4 as amended. The header record written first on the stream is the
JSON object carrying the column name list together with an empty rows
list: for request body with query `SELECT 1 AS a, 2 AS b` the header
record encodes as `{"columns":["a","b"],"rows":[]}` and is followed by
exactly one row record encoding as `{"rows":[[1,2]]}`. -/
theorem c4_header_record_amended :
    recJsons (queryHandler dbC4 wireOk ⟨"POST", ReqBody.json (some "SELECT 1 AS a, 2 AS b"), ⟨none⟩⟩) =
      [headerRecord ["a", "b"], rowRecord [Value.int 1, Value.int 2]] ∧
    String.mk (renderChars (headerRecord ["a", "b"])) =
      "\x7b\"columns\":[\"a\",\"b\"],\"rows\":[]\x7d" ∧
    String.mk (renderChars (rowRecord [Value.int 1, Value.int 2])) =
      "\x7b\"rows\":[[1,2]]\x7d" := by
  refine ⟨rfl, ?_, ?_⟩ <;>
    simp [headerRecord, rowRecord, renderChars, renderElems, renderElemsTail, renderFields,
          renderFieldsTail, quoteString, escapeChar, intChars, natDigits, Value.toJson, digitChar]

/-- C5. For every accepted query, the column names in the header record
are exactly `getColumnNames` of the field descriptions the database
returned — the per-descriptor `Name`, in the same order and count. -/
theorem c5_header_columns_match (db : Db) (wire : Nat → Option String) (q : String)
    (ctx : Context) (rows : Rows)
    (hq : db.query Context.background q = Except.ok rows)
    (h0 : wire 0 = none) :
    (∃ rest, recJsons (queryHandler db wire ⟨"POST", ReqBody.json (some q), ctx⟩) =
        headerRecord (rows.fieldDescriptions.map FieldDescription.name) :: rest) ∧
    getColumnNames rows.fieldDescriptions = rows.fieldDescriptions.map FieldDescription.name ∧
    (getColumnNames rows.fieldDescriptions).length = rows.fieldDescriptions.length := by
  refine ⟨⟨recJsons (streamRows wire 1 rows.steps).1, ?_⟩, rfl, by simp [getColumnNames]⟩
  rw [recJsons_query_ok db wire q ctx rows hq h0]
  rfl

/-- Witness for C5 at a concrete two-column, zero-row query. -/
theorem c5_header_columns_match_witness :
    dbC5.query Context.background "SELECT * FROM t" = Except.ok rowsC5 ∧
    wireOk 0 = none ∧
    ((∃ rest, recJsons (queryHandler dbC5 wireOk ⟨"POST", ReqBody.json (some "SELECT * FROM t"), ⟨none⟩⟩) =
        headerRecord (rowsC5.fieldDescriptions.map FieldDescription.name) :: rest) ∧
      getColumnNames rowsC5.fieldDescriptions = rowsC5.fieldDescriptions.map FieldDescription.name ∧
      (getColumnNames rowsC5.fieldDescriptions).length = rowsC5.fieldDescriptions.length) :=
  ⟨rfl, rfl,
   c5_header_columns_match dbC5 wireOk "SELECT * FROM t" ⟨none⟩ rowsC5 rfl rfl⟩

/-- C6. For every query the database rejects at submission time, the
handler answers with a single `http.Error` of status 400 (a 4xx) whose
body contains the database's error text, writes no record to the
streaming body, and emits no header record and no gzip frame. -/
theorem c6_submission_failure_no_stream (db : Db) (wire : Nat → Option String)
    (q : String) (ctx : Context) (e : String)
    (hq : db.query Context.background q = Except.error e) :
    queryHandler db wire ⟨"POST", ReqBody.json (some q), ctx⟩ =
      [Ev.httpError 400 ("Query error: " ++ e)] ∧
    recJsons (queryHandler db wire ⟨"POST", ReqBody.json (some q), ctx⟩) = [] ∧
    Ev.gzClose ∉ queryHandler db wire ⟨"POST", ReqBody.json (some q), ctx⟩ ∧
    (∃ c msg, queryHandler db wire ⟨"POST", ReqBody.json (some q), ctx⟩ = [Ev.httpError c msg] ∧
      (c / 100 = 4 ∨ c / 100 = 5) ∧ ∃ pre, msg = pre ++ e) := by
  have h : queryHandler db wire ⟨"POST", ReqBody.json (some q), ctx⟩ =
      [Ev.httpError 400 ("Query error: " ++ e)] := by
    simp [queryHandler, decodeBody, hq]
  refine ⟨h, by rw [h]; rfl, by rw [h]; simp, 400, "Query error: " ++ e, h,
    Or.inl (by norm_num), "Query error: ", rfl⟩

/-- Witness for C6 at the malformed-SQL scenario (`SELEC 1`). -/
theorem c6_submission_failure_no_stream_witness :
    dbC6.query Context.background "SELEC 1" = Except.error "syntax error at or near \"SELEC\"" ∧
    (queryHandler dbC6 wireOk ⟨"POST", ReqBody.json (some "SELEC 1"), ⟨none⟩⟩ =
        [Ev.httpError 400 ("Query error: " ++ "syntax error at or near \"SELEC\"")] ∧
      recJsons (queryHandler dbC6 wireOk ⟨"POST", ReqBody.json (some "SELEC 1"), ⟨none⟩⟩) = [] ∧
      Ev.gzClose ∉ queryHandler dbC6 wireOk ⟨"POST", ReqBody.json (some "SELEC 1"), ⟨none⟩⟩ ∧
      (∃ c msg, queryHandler dbC6 wireOk ⟨"POST", ReqBody.json (some "SELEC 1"), ⟨none⟩⟩ =
          [Ev.httpError c msg] ∧
        (c / 100 = 4 ∨ c / 100 = 5) ∧ ∃ pre, msg = pre ++ "syntax error at or near \"SELEC\"")) :=
  ⟨rfl, c6_submission_failure_no_stream dbC6 wireOk "SELEC 1" ⟨none⟩
    "syntax error at or near \"SELEC\"" rfl⟩

/-- C7. On a successful query, every record written to the body is a
top-level JSON object whose encoder text contains no newline, so the
decompressed body is a sequence of newline-terminated independent
top-level JSON values; and the whole body is not the encoding of any
single JSON array or single JSON object — no wrapper encloses the
stream. -/
theorem c7_stream_framing (db : Db) (wire : Nat → Option String) (q : String)
    (ctx : Context) (rows : Rows) (okVals : List (List Value))
    (hq : db.query Context.background q = Except.ok rows)
    (hsteps : rows.steps = okVals.map Except.ok)
    (hwire : ∀ k, wire k = none) :
    (∀ j ∈ recJsons (queryHandler db wire ⟨"POST", ReqBody.json (some q), ctx⟩),
      ∃ fs, j = Json.obj fs) ∧
    (∀ j ∈ recJsons (queryHandler db wire ⟨"POST", ReqBody.json (some q), ctx⟩),
      '\n' ∉ renderChars j) ∧
    (∀ elems, gzBody (queryHandler db wire ⟨"POST", ReqBody.json (some q), ctx⟩) ≠
      renderChars (Json.arr elems)) ∧
    (∀ fs, gzBody (queryHandler db wire ⟨"POST", ReqBody.json (some q), ctx⟩) ≠
      renderChars (Json.obj fs)) := by
  have h := recJsons_allOk db wire q ctx rows okVals hq hsteps hwire
  have hends : ∃ pre, gzBody (queryHandler db wire ⟨"POST", ReqBody.json (some q), ctx⟩) =
      pre ++ ['\n'] := by
    unfold gzBody
    exact flatten_records_ends_nl _ (by rw [h]; simp)
  rcases hends with ⟨pre, hpre⟩
  refine ⟨?_, ?_, ?_, ?_⟩
  · intro j hj
    rw [h] at hj
    rcases List.mem_cons.mp hj with rfl | hj2
    · exact ⟨_, rfl⟩
    · rcases List.mem_map.mp hj2 with ⟨vs, _, rfl⟩
      exact ⟨_, rfl⟩
  · intro j hj
    rw [h] at hj
    rcases List.mem_cons.mp hj with rfl | hj2
    · exact headerRecord_nl _
    · rcases List.mem_map.mp hj2 with ⟨vs, _, rfl⟩
      exact rowRecord_nl vs
  · intro elems
    rw [hpre]
    exact nl_append_ne_arr pre elems
  · intro fs
    rw [hpre]
    exact nl_append_ne_obj pre fs

/-- Witness for C7 at a concrete two-row text/null query. -/
theorem c7_stream_framing_witness :
    dbC7.query Context.background "SELECT v" = Except.ok rowsC7 ∧
    rowsC7.steps = [[Value.str "p"], [Value.null]].map Except.ok ∧
    (∀ k, wireOk k = none) ∧
    ((∀ j ∈ recJsons (queryHandler dbC7 wireOk ⟨"POST", ReqBody.json (some "SELECT v"), ⟨none⟩⟩),
        ∃ fs, j = Json.obj fs) ∧
      (∀ j ∈ recJsons (queryHandler dbC7 wireOk ⟨"POST", ReqBody.json (some "SELECT v"), ⟨none⟩⟩),
        '\n' ∉ renderChars j) ∧
      (∀ elems, gzBody (queryHandler dbC7 wireOk ⟨"POST", ReqBody.json (some "SELECT v"), ⟨none⟩⟩) ≠
        renderChars (Json.arr elems)) ∧
      (∀ fs, gzBody (queryHandler dbC7 wireOk ⟨"POST", ReqBody.json (some "SELECT v"), ⟨none⟩⟩) ≠
        renderChars (Json.obj fs))) :=
  ⟨rfl, rfl, fun _ => rfl,
   c7_stream_framing dbC7 wireOk "SELECT v" ⟨none⟩ rowsC7 [[Value.str "p"], [Value.null]]
     rfl rfl (fun _ => rfl)⟩

/-- C8 (code bug). The claim says the handler respects the request's
cancellation signal, checking it at least once per row.  The code
submits the query with `context.Background()` (line 59 of `src/main.go`)
and never consults `r.Context()` nor checks anything in the row loop.
Evaluated against a cancellation-aware database and a request whose
context is already cancelled before the first row: the handler still
pulls and emits all three rows; and in general its output does not
depend on the request's context at all. -/
theorem c8_cancellation_ignored :
    dbC8.query ⟨some 0⟩ "SELECT n" = Except.error "canceled" ∧
    queryHandler dbC8 wireOk ⟨"POST", ReqBody.json (some "SELECT n"), ⟨some 0⟩⟩ =
      [Ev.record (headerRecord ["n"]), Ev.record (rowRecord [Value.int 1]),
       Ev.record (rowRecord [Value.int 2]), Ev.record (rowRecord [Value.int 3]), Ev.gzClose] ∧
    (∀ c c' : Context, ∀ db : Db, ∀ wire : Nat → Option String, ∀ b : ReqBody,
      queryHandler db wire ⟨"POST", b, c⟩ = queryHandler db wire ⟨"POST", b, c'⟩) := by
  refine ⟨rfl, rfl, fun c c' db wire b => rfl⟩

/-- C9. For every accepted query, every record after the header is a
single-row `rowRecord`: its `"rows"` array holds exactly one row — the
batch size is always 1, never more — whatever the cursor steps and the
write outcomes are. -/
theorem c9_single_row_records (db : Db) (wire : Nat → Option String) (q : String)
    (ctx : Context) (rows : Rows)
    (hq : db.query Context.background q = Except.ok rows) :
    ∀ j ∈ (recJsons (queryHandler db wire ⟨"POST", ReqBody.json (some q), ctx⟩)).tail,
      ∃ vs, j = rowRecord vs ∧ recRows j = [Json.arr (vs.map Value.toJson)] ∧
        (recRows j).length = 1 := by
  intro j hj
  cases hw : wire 0 with
  | some msg =>
    rw [queryHandler_query_ok db wire q ctx rows hq, hw] at hj
    simp [recJsons] at hj
  | none =>
    rw [recJsons_query_ok db wire q ctx rows hq hw] at hj
    simp only [List.tail_cons] at hj
    rcases streamRows_record_shape wire rows.steps 1 j ((mem_recJsons j _).mp hj) with ⟨vs, rfl⟩
    exact ⟨vs, rfl, recRows_rowRecord vs, by rw [recRows_rowRecord]; rfl⟩

/-- Witness for C9 at a concrete two-row query. -/
theorem c9_single_row_records_witness :
    dbC1.query Context.background "SELECT x" = Except.ok rowsC1 ∧
    (∀ j ∈ (recJsons (queryHandler dbC1 wireOk ⟨"POST", ReqBody.json (some "SELECT x"), ⟨none⟩⟩)).tail,
      ∃ vs, j = rowRecord vs ∧ recRows j = [Json.arr (vs.map Value.toJson)] ∧
        (recRows j).length = 1) :=
  ⟨rfl, c9_single_row_records dbC1 wireOk "SELECT x" ⟨none⟩ rowsC1 rfl⟩

/-- C10. A request body that is well-formed JSON but lacks the `"query"`
key behaves exactly like one whose query is the empty string: it is not
rejected as a malformed-body 400, the empty string is submitted as the
query text, and if the database rejects it the failure is reported as a
query error. -/
theorem c10_missing_query_key (db : Db) (wire : Nat → Option String) (ctx : Context) :
    queryHandler db wire ⟨"POST", ReqBody.json none, ctx⟩ =
      queryHandler db wire ⟨"POST", ReqBody.json (some ""), ctx⟩ ∧
    queryHandler db wire ⟨"POST", ReqBody.json none, ctx⟩ ≠
      [Ev.httpError 400 "Invalid request body"] ∧
    (∀ e, db.query Context.background "" = Except.error e →
      queryHandler db wire ⟨"POST", ReqBody.json none, ctx⟩ =
        [Ev.httpError 400 ("Query error: " ++ e)]) := by
  refine ⟨rfl, ?_, ?_⟩
  · cases hq : db.query Context.background "" with
    | error e =>
      have h : queryHandler db wire ⟨"POST", ReqBody.json none, ctx⟩ =
          [Ev.httpError 400 ("Query error: " ++ e)] := by
        simp [queryHandler, decodeBody, hq]
      rw [h]
      intro hcontra
      simp only [List.cons.injEq, Ev.httpError.injEq, and_true, true_and] at hcontra
      exact query_error_ne_body_error e hcontra
    | ok rows =>
      have h := queryHandler_query_ok db wire "" ctx rows hq
      have h2 : queryHandler db wire ⟨"POST", ReqBody.json none, ctx⟩ =
          queryHandler db wire ⟨"POST", ReqBody.json (some ""), ctx⟩ := rfl
      rw [h2, h]
      cases hw : wire 0 with
      | some msg => simp
      | none =>
        cases hfe : rows.finalErr <;>
          by_cases hr : (streamRows wire 1 rows.steps).2 <;>
            simp [hr, hfe]
  · intro e hq
    simp [queryHandler, decodeBody, hq]

/-- Witness for C10 against a database that rejects the empty query. -/
theorem c10_missing_query_key_witness :
    (queryHandler dbC10 wireOk ⟨"POST", ReqBody.json none, ⟨none⟩⟩ =
        queryHandler dbC10 wireOk ⟨"POST", ReqBody.json (some ""), ⟨none⟩⟩ ∧
      queryHandler dbC10 wireOk ⟨"POST", ReqBody.json none, ⟨none⟩⟩ ≠
        [Ev.httpError 400 "Invalid request body"] ∧
      (∀ e, dbC10.query Context.background "" = Except.error e →
        queryHandler dbC10 wireOk ⟨"POST", ReqBody.json none, ⟨none⟩⟩ =
          [Ev.httpError 400 ("Query error: " ++ e)])) ∧
    queryHandler dbC10 wireOk ⟨"POST", ReqBody.json none, ⟨none⟩⟩ =
      [Ev.httpError 400 "Query error: empty query"] :=
  ⟨c10_missing_query_key dbC10 wireOk ⟨none⟩,
   (c10_missing_query_key dbC10 wireOk ⟨none⟩).2.2 "empty query" rfl⟩

end PgProxy
